import Mathlib

/-!
Verification of the ACME CSE request-processing and notification subsystem.

Shallow embedding of the subscription / notification manager
(src/acme/services/NotificationManager.py), the access-control engine
(src/acme/services/SecurityManager.py), the storage binding
(src/acme/Storage.py) and the virtual time-series child resource
(src/acme/resources/TS_OL.py, src/acme/resources/TS.py).

Python dictionaries are embedded as association lists, Python truthiness of
numbers and lists is made explicit at each use site, and the outcome of
outbound network requests is passed in as a parameter.
-/

set_option autoImplicit false

namespace Acme

/-- Response status codes used by the embedded fragments
    (numeric codes of the error taxonomy, here as a plain enumeration). -/
inductive RC where
  | OK
  | created
  | internalServerError
  | notFound
  | operationNotAllowed
  | subscriptionVerificationInitiationFailed
  | badRequestRC
  | originatorHasNoPrivilege
deriving DecidableEq, Repr

/-! ## NotificationManager: sending to one or many targets -/

/-- The uris argument of NotificationManager sendNotification is either a
    single string or a list of strings. -/
inductive Uris where
  | one (u : String)
  | many (us : List String)

/-- The loop of NotificationManager sendNotification for a list argument:
    call the sender function on each uri in list order and return False as
    soon as one sender call returns False; True when the list is exhausted. -/
def sendNotificationList (sender : String → Bool) : List String → Bool
  | [] => true
  | u :: us => if sender u then sendNotificationList sender us else false

/-- NotificationManager sendNotification: a single string target is passed
    to the sender function directly, a list is processed by the loop. -/
def sendNotification (uris : Uris) (sender : String → Bool) : Bool :=
  match uris with
  | .one u => sender u
  | .many us => sendNotificationList sender us

/-- The list of targets on which the sender function is actually invoked by
    the sendNotification loop (same loop as sendNotificationList, recording
    the uris passed to the sender before a possible early False return). -/
def attemptedTargets (sender : String → Bool) : List String → List String
  | [] => []
  | u :: us => if sender u then u :: attemptedTargets sender us else [u]

/-! ## NotificationManager: subscription expiration counter -/

/-- The expiration-counter epilogue of
    NotificationManager handleSubscriptionNotification.
    The input is the overall send result and the exc attribute of the
    subscription (none embeds a missing exc). The output is the state of the
    subscription afterwards: none means the subscription resource and its
    record were deleted, some e means the subscription still exists and its
    exc attribute is e.
    Python truthiness: the guard (result and exc) is false when exc is 0,
    so a zero counter is left untouched. -/
def handleExpirationCounter (result : Bool) (exc : Option Nat) : Option (Option Nat) :=
  match result, exc with
  | true, some e =>
      if e ≠ 0 then
        if e - 1 < 1 then none else some (some (e - 1))
      else some (some e)
  | _, e => some e

/-- One successful notification applied to a subscription state
    (none = already deleted, no further handling happens for it). -/
def stepSuccessfulNotification (s : Option (Option Nat)) : Option (Option Nat) :=
  match s with
  | none => none
  | some e => handleExpirationCounter true e

/-- k successful notifications applied in sequence. -/
def iterateSuccessfulNotifications : Nat → Option (Option Nat) → Option (Option Nat)
  | 0, s => s
  | k + 1, s => iterateSuccessfulNotifications k (stepSuccessfulNotification s)

/-! ## NotificationManager: cross-resource subscription windows -/

/-- The deduplicating append of
    NotificationManager receivedCrossResourceSubscriptionNotification:
    a sur already contained in the window data is not appended again. -/
def crsReceived (data : List String) (sur : String) : List String :=
  if sur ∈ data then data else data ++ [sur]

/-- NotificationManager crsCheckForNotification, run when a periodic window
    ticks or a sliding window actor fires. retrieveOk is the outcome of the
    dispatcher retrieval of the crs resource. The result is the number of
    aggregated notifications fired for the crs together with the window data
    list after the call (the data list is cleared on every path). -/
def crsCheckForNotification (data : List String) (subCount : Nat) (retrieveOk : Bool) :
    Nat × List String :=
  if data.length = subCount then
    if retrieveOk then (1, []) else (0, [])
  else (0, [])

/-! ## NotificationManager: batch notifications -/

/-- Modelled from the spec: one entry of the batch-notification table.
    The storage operations addBatchNotification, getBatchNotifications,
    countBatchNotifications and removeBatchNotifications are not part of the
    sources; per the spec the table keeps, per (subscription ri, nu) pair,
    the pending notifications together with their stored timestamp. -/
structure BatchEntry where
  tstamp : Nat
  request : String
deriving DecidableEq, Repr

/-- Sort the stored batch entries by their stored timestamp
    (sorted with key tstamp in the source). -/
def sortByTstamp (l : List BatchEntry) : List BatchEntry :=
  List.insertionSort (fun a b => a.tstamp ≤ b.tstamp) l

/-- NotificationManager sendSubscriptionAggregatedBatchNotification for one
    (ri, nu) pair. pending is the stored batch for that pair, ln the
    latestNotify flag, sendOk the outcome of the outbound notify request.
    Result: the stored batch after the call, the m2m:agn payload handed to
    the send (none when nothing was sent), and the boolean result.
    Mirrors the source order: the stored notifications are sorted by
    timestamp, reduced to the last one when ln is set, then the stored batch
    is removed, and only then the aggregate is sent. -/
def sendSubscriptionAggregatedBatchNotification (pending : List BatchEntry) (ln : Bool)
    (sendOk : Bool) : List BatchEntry × Option (List String) × Bool :=
  let notifications := (sortByTstamp pending).map (fun e => e.request)
  if notifications.length = 0 then (pending, none, false)
  else
    let notifications := if ln then notifications.drop (notifications.length - 1)
                         else notifications
    (([] : List BatchEntry), some notifications, sendOk)

/-- NotificationManager storeBatchNotification for one (ri, nu) pair.
    The notification is always stored first. Python truthiness: the num
    branch is taken only when bn/num is present and nonzero and the stored
    count reached it; otherwise the guard-timer branch parses bn/dur
    (durOk embeds a successful parse) and returns False on a parse failure.
    Result as in sendSubscriptionAggregatedBatchNotification; in the num
    branch the boolean result of the aggregated send is discarded by the
    source and True is returned. -/
def storeBatchNotification (pending : List BatchEntry) (tstamp : Nat) (request : String)
    (num : Option Nat) (ln : Bool) (durOk : Bool) (sendOk : Bool) :
    List BatchEntry × Option (List String) × Bool :=
  let pending1 := pending ++ [⟨tstamp, request⟩]
  match num with
  | some n =>
      if n ≠ 0 ∧ n ≤ pending1.length then
        let r := sendSubscriptionAggregatedBatchNotification pending1 ln sendOk
        (r.1, r.2.1, true)
      else
        if durOk then (pending1, none, true) else (pending1, none, false)
  | none => if durOk then (pending1, none, true) else (pending1, none, false)

/-! ## NotificationManager: verification requests on subscription CRUD -/

/-- The response to an outbound notify request: the transport status and the
    response status code. -/
structure NotifyResponse where
  status : Bool
  rsc : RC

/-- The sender callback of NotificationManager sendVerificationRequest for a
    single target uri: False when the request itself fails, False when the
    response status code is not OK, True otherwise. resp is the outcome of
    the outbound request per target. -/
def sendVerificationRequestSingle (resp : String → NotifyResponse) (uri : String) : Bool :=
  if (resp uri).status = false then false
  else if (resp uri).rsc ≠ RC.OK then false
  else true

/-- The newness test of NotificationManager verifyNusInSubscription:
    (not previousNus or nu not in previousNus). Python truthiness: an empty
    previous list behaves like an absent one. -/
def isNewNu (previousNus : Option (List String)) (nu : String) : Bool :=
  match previousNus with
  | none => true
  | some l => l.isEmpty || !(l.contains nu)

/-- NotificationManager verifyNusInSubscription: walk the nu list in order;
    for each new nu that is not the originator (directly or by id
    comparison, sameID embeds Utils compareIDs) send a verification request;
    stop with an overall failure as soon as one verification fails.
    Result: the list of targets that received a verification request, and
    the overall boolean outcome (status of the returned Result object). -/
def verifyNusInSubscription (sameID : String → String → Bool)
    (resp : String → NotifyResponse) (previousNus : Option (List String))
    (originator : String) : List String → List String × Bool
  | [] => ([], true)
  | nu :: rest =>
      if isNewNu previousNus nu then
        if nu = originator ∨ sameID nu originator then
          verifyNusInSubscription sameID resp previousNus originator rest
        else
          if sendVerificationRequestSingle resp nu then
            let r := verifyNusInSubscription sameID resp previousNus originator rest
            (nu :: r.1, r.2)
          else ([nu], false)
      else verifyNusInSubscription sameID resp previousNus originator rest

/-- Outcome of a subscription CRUD operation in the NotificationManager. -/
inductive SubCrudOutcome where
  | stored
  | error (rsc : RC)
deriving DecidableEq, Repr

/-- NotificationManager addSubscription: run the verification requests and
    only on success store the subscription record (dbOk embeds the database
    outcome); a verification failure yields the error result with rsc
    SUBSCRIPTION_VERIFICATION_INITIATION_FAILED and nothing is stored. -/
def addSubscription (sameID : String → String → Bool) (resp : String → NotifyResponse)
    (nus : List String) (originator : String) (dbOk : Bool) : SubCrudOutcome :=
  if (verifyNusInSubscription sameID resp none originator nus).2 then
    if dbOk then .stored else .error RC.internalServerError
  else .error RC.subscriptionVerificationInitiationFailed

/-- NotificationManager updateSubscription: as addSubscription but only nus
    not in the previous nu list are verified. -/
def updateSubscription (sameID : String → String → Bool) (resp : String → NotifyResponse)
    (nus previousNus : List String) (originator : String) (dbOk : Bool) : SubCrudOutcome :=
  if (verifyNusInSubscription sameID resp (some previousNus) originator nus).2 then
    if dbOk then .stored else .error RC.internalServerError
  else .error RC.subscriptionVerificationInitiationFailed

/-- NotificationManager addCrossResourceSubscription: only the verification
    handshake; the crs resource itself is stored by the dispatcher. -/
def addCrossResourceSubscription (sameID : String → String → Bool)
    (resp : String → NotifyResponse) (nus : List String) (originator : String) :
    SubCrudOutcome :=
  if (verifyNusInSubscription sameID resp none originator nus).2 then .stored
  else .error RC.subscriptionVerificationInitiationFailed

/-- NotificationManager updateCrossResourceSubscription. -/
def updateCrossResourceSubscription (sameID : String → String → Bool)
    (resp : String → NotifyResponse) (nus previousNus : List String) (originator : String) :
    SubCrudOutcome :=
  if (verifyNusInSubscription sameID resp (some previousNus) originator nus).2 then .stored
  else .error RC.subscriptionVerificationInitiationFailed

/-! ## SecurityManager: data model -/

/-- The resource type codes that the embedded SecurityManager fragments
    distinguish; every other type takes the default branch and is embedded
    as CNT (a generic resource) or its stand-ins. -/
inductive RT where
  | ACP
  | ACPAnnc
  | GRP
  | SUB
  | CSEBase
  | CSEBaseAnnc
  | PCH
  | CSR
  | AE
  | CNT
  | TS
  | TSI
deriving DecidableEq, Repr

/-- RT isAnnounced: the announced variants among the embedded types. -/
def RT.isAnnouncedTy : RT → Bool
  | .ACPAnnc => true
  | .CSEBaseAnnc => true
  | _ => false

/-- Modelled from the spec: the Permission bitmask of etc/Types.py is not in
    the sources; the spec fixes a permission bitmask with the six oneM2M
    operations and ALL = 63. -/
def Permission.NONE : Nat := 0

/-- Modelled from the spec: CREATE permission bit. -/
def Permission.CREATE : Nat := 1

/-- Modelled from the spec: RETRIEVE permission bit. -/
def Permission.RETRIEVE : Nat := 2

/-- Modelled from the spec: UPDATE permission bit. -/
def Permission.UPDATE : Nat := 4

/-- Modelled from the spec: DELETE permission bit. -/
def Permission.DELETE : Nat := 8

/-- Modelled from the spec: NOTIFY permission bit. -/
def Permission.NOTIFY : Nat := 16

/-- Modelled from the spec: DISCOVERY permission bit. -/
def Permission.DISCOVERY : Nat := 32

/-- Modelled from the spec: all permission bits. -/
def Permission.ALL : Nat := 63

/-- An accessControlObjectDetails entry of an access-control rule: a list of
    allowed child types and an optional resource type. A missing chty list is
    embedded as the empty list (both make the entry match no CREATE type). -/
structure Acod where
  chty : List RT
  ty : Option RT
deriving DecidableEq, Repr

/-- One accessControlRule: originator patterns, permission bitmask and the
    optional object-detail filters. -/
structure ACR where
  acor : List String
  acop : Nat
  acod : Option (List Acod)
deriving DecidableEq, Repr

/-- The part of an ACP resource the SecurityManager reads: its type (ACP or
    ACPAnnc) and the two rule sets pv/acr and pvs/acr. -/
structure ACPRes where
  ty : RT
  pv : List ACR
  pvs : List ACR
deriving DecidableEq, Repr

/-- The part of a resource the SecurityManager reads. creator is the value
    of getOriginator, mayHaveAcpi embeds (acpi in resource attributes),
    parentOriginator the value of getParentOriginator for PCH resources, and
    pv/pvs the rule sets when the resource itself is an ACP or ACPAnnc. -/
structure SRes where
  ri : String
  ty : RT
  pi : Option String
  acpi : Option (List String)
  macp : Option (List String)
  cstn : Option String
  creator : Option String
  mayHaveAcpi : Bool
  inheritACP : Bool
  isAnnounced : Bool
  lnk : Option String
  atRefs : Option (List String)
  parentOriginator : Option String
  pv : List ACR
  pvs : List ACR

/-- The environment of the SecurityManager: configuration values, the CSE
    identity, the registration lists, and the external collaborators
    (pattern matcher, resource lookups) as functions. -/
structure SecEnv where
  enableACPChecks : Bool
  fullAccessAdmin : Bool
  cseOriginator : String
  cseCsi : String
  cseSPRelative : String
  registrarCSI : String
  allowedCSROriginators : List String
  allowedAEOriginators : List String
  registeredAE : String → Bool
  simpleMatch : String → String → Bool
  typeOf : String → Option RT
  groupMid : String → Option (List String)
  acpLookup : String → Option ACPRes
  resLookup : String → Option SRes

/-- The python str.startswith test, embedded on the character list of the
    string so that it evaluates inside the kernel. -/
def strStartsWith (s p : String) : Bool :=
  List.isPrefixOf p.data s.data

/-- The python str.endswith test, embedded on the character list of the
    string. -/
def strEndsWith (s p : String) : Bool :=
  List.isSuffixOf p.data s.data

/-- Modelled from the spec: getIdFromOriginator of etc/ACMEUtils.py is not
    in the sources; per the spec the ID part of an originator is the last
    path segment when the originator is in SP- or CSE-relative form
    (begins with a slash), and the originator itself otherwise. -/
def getIdFromOriginator (originator : String) : String :=
  if originator ≠ "" ∧ strStartsWith originator "/" then
    String.mk ((originator.data.splitOn (Char.ofNat 47)).getLastD originator.data)
  else originator

/-- Modelled from the spec: isSPRelative of etc/ACMEUtils.py is not in the
    sources; an SP-relative ID begins with exactly one slash. -/
def isSPRelative (s : String) : Bool :=
  strStartsWith s "/" && !(strStartsWith s "//")

/-- Modelled from the spec: toCSERelative of etc/ACMEUtils.py is not in the
    sources; it drops the leading slash and the CSE-ID path segment. -/
def toCSERelative (s : String) : String :=
  String.mk (List.intercalate [Char.ofNat 47] ((s.data.splitOn (Char.ofNat 47)).drop 2))

/-! ## SecurityManager: access-control rule evaluation -/

/-- SecurityManager isAllowedOriginator: the hosting CSE always matches,
    otherwise the ID part of the originator is matched against the allowed
    patterns. Python truthiness: an empty originator or an empty list never
    match. -/
def isAllowedOriginator (env : SecEnv) (originator : String)
    (allowedOriginators : List String) : Bool :=
  if originator = "" ∨ allowedOriginators = [] then false
  else if originator = env.cseCsi ∨ originator = env.cseSPRelative then true
  else allowedOriginators.any (fun ao => env.simpleMatch (getIdFromOriginator originator) ao)

/-- One entry of the acor walk of SecurityManager checkAcor: group
    membership for GRP references (a failed group retrieval skips the
    wildcard test for that entry), wildcard match otherwise. -/
def checkAcorEntry (env : SecEnv) (originator a : String) : Bool :=
  if env.typeOf a = some RT.GRP then
    match env.groupMid a with
    | some mid => if mid.contains originator then true else env.simpleMatch originator a
    | none => false
  else env.simpleMatch originator a

/-- SecurityManager checkAcor: the keyword all or a literal match grant
    directly, otherwise the entries are walked for group membership or a
    wildcard match. -/
def checkAcor (env : SecEnv) (acor : List String) (originator : String) : Bool :=
  if acor.contains "all" ∨ acor.contains originator then true
  else acor.any (checkAcorEntry env originator)

/-- The object-detail test for one acod entry in
    SecurityManager checkSingleACPPermission: on CREATE the created type
    must be given and listed in chty, on other operations a given type must
    equal the acod type. -/
def acodMatch (perm : Nat) (ty : Option RT) (a : Acod) : Bool :=
  if perm = Permission.CREATE then
    match ty with
    | none => false
    | some t => a.chty.contains t
  else
    match ty with
    | none => true
    | some t => a.ty = some t

/-- The acod guard of one accessControlRule. Python truthiness: a missing or
    empty acod list skips the object-detail check entirely. -/
def acodOk (perm : Nat) (ty : Option RT) (acod : Option (List Acod)) : Bool :=
  match acod with
  | none => true
  | some l => if l.isEmpty then true else l.any (acodMatch perm ty)

/-- SecurityManager checkSingleACPPermission: some rule of pv/acr must carry
    the requested permission bit, pass the acod guard and match the
    originator. -/
def checkSingleACPPermission (env : SecEnv) (acp : ACPRes) (originator : String)
    (perm : Nat) (ty : Option RT) : Bool :=
  acp.pv.any (fun acr =>
    if perm &&& acr.acop = 0 then false
    else if acodOk perm ty acr.acod = false then false
    else checkAcor env acr.acor originator)

/-- SecurityManager checkACPSelfPermission on the pvs/acr rule set; the
    ACPAnnc variant only tests the keyword all, literal membership and
    wildcard matches. -/
def checkACPSelfPermission (env : SecEnv) (acp : ACPRes) (originator : String)
    (perm : Nat) : Bool :=
  match acp.ty with
  | RT.ACP =>
      acp.pvs.any (fun acr =>
        if perm &&& acr.acop = 0 then false
        else checkAcor env acr.acor originator)
  | RT.ACPAnnc =>
      acp.pvs.any (fun acr =>
        if perm &&& acr.acop = 0 then false
        else if acr.acor.contains "all" ∨ acr.acor.contains originator then true
        else acr.acor.any (env.simpleMatch originator))
  | _ => false

/-- The inner checkACPI helper of SecurityManager hasAccess: retrieve the
    referenced ACP resource (a failed retrieval denies) and test its pv
    rules. -/
def checkACPIRef (env : SecEnv) (originator : String) (perm : Nat) (ty : Option RT)
    (acpRi : String) : Bool :=
  match env.acpLookup acpRi with
  | none => false
  | some acp => checkSingleACPPermission env acp originator perm ty

/-! ## SecurityManager: hasAccess -/

/-- The type-specific shortcuts of hasAccess for a given request type ty:
    AE / CSR / CSEBaseAnnc registration on CREATE and the announced-type
    rule. some b is an early return, none falls through. -/
def tyShortcut (env : SecEnv) (o : String) (perm : Nat) (ty : Option RT)
    (par : Option SRes) : Option Bool :=
  match ty with
  | none => none
  | some t =>
      let afterCreate : Option Bool :=
        if perm = Permission.CREATE then
          match t with
          | RT.AE =>
              if o = "" ∨ isAllowedOriginator env o env.allowedAEOriginators then some true
              else none
          | RT.CSR =>
              if isAllowedOriginator env o env.allowedCSROriginators then some true
              else some false
          | RT.CSEBaseAnnc =>
              if isAllowedOriginator env o env.allowedCSROriginators then some true
              else some false
          | _ => none
        else none
      match afterCreate with
      | some b => some b
      | none =>
          if t.isAnnouncedTy then
            if isAllowedOriginator env o env.allowedCSROriginators ||
               (match par with
                | some p => String.mk (o.data.drop 1) == p.ri
                | none => false) then some true
            else some false
          else none

/-- The announced-resource shortcut of hasAccess: the resource is announced,
    the originator is an allowed CSR originator and the link points into the
    originator. -/
def announcedOk (env : SecEnv) (o : String) (r : SRes) : Bool :=
  r.isAnnounced && isAllowedOriginator env o env.allowedCSROriginators &&
    (match r.lnk with
     | some l => strStartsWith l (o ++ "/")
     | none => false)

/-- The announcement-target shortcut of hasAccess: on UPDATE an originator
    listed in the announced-to attribute (atRefs embeds the at attribute of
    the resource, as a prefix entry) is allowed. -/
def atUpdateOk (o : String) (r : SRes) (perm : Nat) : Bool :=
  match r.atRefs with
  | none => false
  | some l => (perm == Permission.UPDATE) && l.any (fun e => strStartsWith e (o ++ "/"))

/-- The per-resource-type match of hasAccess: CSEBase retrieval, PCH parent
    originator, GRP membersAccessControlPolicyIDs, ACP self permissions, and
    the SUB parent-retrieval requirement (whose recursive result is passed
    in as subParentOk). some b is an early return, none falls through to the
    acpi evaluation. -/
def resourceTypeCase (env : SecEnv) (o : String) (r : SRes) (perm : Nat)
    (ty : Option RT) (par : Option SRes) (subParentOk : Bool) : Option Bool :=
  match r.ty with
  | RT.CSEBase =>
      if perm &&& Permission.RETRIEVE ≠ 0 then
        if o = env.registrarCSI then some true
        else if isAllowedOriginator env o env.allowedCSROriginators then some true
        else if env.registeredAE o then some true
        else none
      else none
  | RT.PCH => some (r.parentOriginator = some o)
  | RT.GRP =>
      match r.macp with
      | none => none
      | some l =>
          if l.isEmpty then none
          else some (l.any (checkACPIRef env o perm ty))
  | RT.ACP => some (checkACPSelfPermission env ⟨r.ty, r.pv, r.pvs⟩ o perm)
  | RT.ACPAnnc => some (checkACPSelfPermission env ⟨r.ty, r.pv, r.pvs⟩ o perm)
  | RT.SUB =>
      match par with
      | some _ => if subParentOk = false then some false else none
      | none => none
  | _ => none

/-- The decision of hasAccess for a resource without a usable acpi list:
    custodian / creator when the type may carry an acpi, inheritACP
    recursion otherwise (whose recursive result is passed in), deny else. -/
def noAcpiDecision (o : String) (r : SRes) (inheritResult : Bool) : Bool :=
  if r.mayHaveAcpi then
    match r.cstn with
    | some c => c = o
    | none => r.creator = some o
  else if r.inheritACP then inheritResult
  else false

/-- The tail of hasAccess after the None-originator, admin, NOTIFY and
    ID-conversion preamble: parameter range check, type shortcuts,
    announced-resource rules, the per-type match and finally the acpi
    evaluation (passed in as acpiPart, evaluated only on fall-through). -/
def hasAccessAfterConvert (env : SecEnv) (o : String) (r : SRes) (perm : Nat)
    (ty : Option RT) (par : Option SRes) (subParentOk : Bool) (acpiPart : Bool) : Bool :=
  if perm = 0 ∨ Permission.ALL < perm then false
  else
    match tyShortcut env o perm ty par with
    | some b => b
    | none =>
        if announcedOk env o r then true
        else if atUpdateOk o r perm then true
        else
          match resourceTypeCase env o r perm ty par subParentOk with
          | some b => b
          | none => acpiPart

/-- SecurityManager hasAccess, with a fuel bound for the two recursive
    calls (the SUB parent RETRIEVE check and the inheritACP parent check);
    with exhausted fuel the access is denied. A none originator is granted
    immediately like in the source; afterwards the originator is converted
    to CSE-relative form when it is SP-relative on the own CSE. Python
    truthiness: an absent and an empty acpi list both take the no-acpi
    branch. -/
def hasAccessFuel (env : SecEnv) : Nat → Option String → SRes → Nat → Option RT →
    Option SRes → Bool
  | 0, _, _, _, _, _ => false
  | Nat.succ fuel, originator, r, perm, ty, par =>
      if env.enableACPChecks = false then true
      else
        match originator with
        | none => true
        | some o1 =>
            if o1 = env.cseOriginator ∨
               (strEndsWith o1 ("/" ++ env.cseOriginator) ∧ env.fullAccessAdmin) then true
            else if perm = Permission.NOTIFY ∧ o1 = env.cseCsi then true
            else
              let o := if isSPRelative o1 ∧ strStartsWith o1 (env.cseCsi ++ "/") then
                         toCSERelative o1
                       else o1
              let subParentOk :=
                match par with
                | some p => hasAccessFuel env fuel (some o) p Permission.RETRIEVE none none
                | none => true
              let inheritResult :=
                match par with
                | some p => hasAccessFuel env fuel (some o) p perm ty none
                | none =>
                    match r.pi with
                    | some pri =>
                        match env.resLookup pri with
                        | some p => hasAccessFuel env fuel (some o) p perm ty none
                        | none => false
                    | none => false
              let acpiPart :=
                match r.acpi with
                | none => noAcpiDecision o r inheritResult
                | some l =>
                    if l.isEmpty then noAcpiDecision o r inheritResult
                    else l.any (checkACPIRef env o perm ty)
              hasAccessAfterConvert env o r perm ty par subParentOk acpiPart

/-! ## SecurityManager: checkAcpiUpdatePermission -/

/-- Outcome of SecurityManager checkAcpiUpdatePermission: the boolean
    return values and the two raised errors. -/
inductive AcpiUpdateOutcome where
  | notAcpiUpdate
  | acpiUpdateAllowed
  | badRequest
  | noPrivilege
deriving DecidableEq, Repr

/-- SecurityManager checkAcpiUpdatePermission: payloadKeys are the attribute
    names under the resource element of the UPDATE payload, targetAcpi and
    targetCreator the current acpi list and the creator of the target.
    acpi must be the only attribute; without a current acpi only the
    creator (by originator ID part) may update, otherwise some referenced
    ACP must grant UPDATE through its self permissions (a failed ACP
    retrieval is skipped). Python truthiness: an absent and an empty acpi
    list behave alike. -/
def checkAcpiUpdatePermission (env : SecEnv) (payloadKeys : List String)
    (targetAcpi : Option (List String)) (targetCreator : Option String)
    (originator : String) : AcpiUpdateOutcome :=
  if payloadKeys.contains "acpi" then
    if 1 < payloadKeys.length then .badRequest
    else
      let o := getIdFromOriginator originator
      match targetAcpi with
      | none => if targetCreator = some o then .acpiUpdateAllowed else .noPrivilege
      | some l =>
          if l.isEmpty then
            if targetCreator = some o then .acpiUpdateAllowed else .noPrivilege
          else
            if l.any (fun acpRi =>
                 match env.acpLookup acpRi with
                 | none => false
                 | some acp => checkACPSelfPermission env acp o Permission.UPDATE) then
              .acpiUpdateAllowed
            else .noPrivilege
  else .notAcpiUpdate

/-- The eligibility of a notification target uri for a verification
    request: the uri is new with respect to the previous nu list and is not
    the originator (directly or by id comparison). -/
def eligibleNu (sameID : String → String → Bool) (previousNus : Option (List String))
    (originator : String) (nu : String) : Bool :=
  isNewNu previousNus nu && !((nu == originator) || sameID nu originator)

/-! ## Storage: the TinyDB binding, documents and null-field deletion -/

/-- A stored document or a resource json: an association list from attribute
    names to attribute values, where none embeds the null sentinel. -/
abbrev Doc (V : Type) : Type := List (String × Option V)

/-- Assign one key of a document (python dict assignment): replace the value
    at the key when the key is present, append the pair otherwise. -/
def setKey {V : Type} : Doc V → String → Option V → Doc V
  | [], k, v => [(k, v)]
  | (k1, v1) :: rest, k, v =>
      if k1 = k then (k, v) :: rest else (k1, v1) :: setKey rest k v

/-- The TinyDB update operation with a dict argument: merge every field of
    the update json into the document (dict update semantics). -/
def mergeDoc {V : Type} (d json : Doc V) : Doc V :=
  json.foldl (fun acc kv => setKey acc kv.1 kv.2) d

/-- The TinyDB delete operation for one field: remove the key. -/
def deleteKey {V : Type} (k : String) (d : Doc V) : Doc V :=
  d.filter (fun kv => kv.1 ≠ k)

/-- The query (Query().ri == ri) on one document. -/
def matchesRi {V : Type} [DecidableEq V] (rv : V) (d : Doc V) : Bool :=
  d.lookup "ri" = some (some rv)

/-- A TinyDB table update: apply the transformation to every document that
    matches the query. -/
def tabUpdate {V : Type} (t : List (Doc V)) (q : Doc V → Bool) (f : Doc V → Doc V) :
    List (Doc V) := t.map (fun d => if q d then f d else d)

/-- TinyDBBinding updateResource: merge the resource json into the matching
    documents, then remove every nullified field from the stored documents
    and from the resource json itself; the result is the table after the
    update and the cleaned resource json that the binding returns. -/
def updateResource {V : Type} [DecidableEq V] (t : List (Doc V)) (rv : V) (json : Doc V) :
    List (Doc V) × Doc V :=
  let t1 := tabUpdate t (matchesRi rv) (fun d => mergeDoc d json)
  let t2 := (json.filter (fun kv => kv.2 = none)).foldl
      (fun tb kv => tabUpdate tb (matchesRi rv) (deleteKey kv.1)) t1
  (t2, json.filter (fun kv => kv.2 ≠ none))

/-- TinyDBBinding searchResources with an ri argument: all documents
    matching the ri query. -/
def searchResourcesRi {V : Type} [DecidableEq V] (t : List (Doc V)) (rv : V) :
    List (Doc V) := t.filter (matchesRi rv)

/-- Storage retrieveResource by ri: the single matching document, none on a
    miss or on a database inconsistency. -/
def retrieveResourceRi {V : Type} [DecidableEq V] (t : List (Doc V)) (rv : V) :
    Option (Doc V) :=
  match searchResourcesRi t rv with
  | [d] => some d
  | _ => none

/-! ## TS and TS_OL: the oldest virtual child of a time-series -/

/-- The part of a timeSeriesInstance the embedded fragments read: its
    resource id and its creation timestamp ct. -/
structure TSIRes where
  ri : String
  ct : Nat
deriving DecidableEq, Repr

/-- TS timeSeriesInstances: the TSI child resources of the time-series
    sorted by creation time ct. -/
def timeSeriesInstances (children : List TSIRes) : List TSIRes :=
  List.insertionSort (fun a b => a.ct ≤ b.ct) children

/-- Result of a TS_OL request handler: a resource or an error status. -/
inductive VirtualResult where
  | resource (r : TSIRes)
  | error (rsc : RC)
deriving DecidableEq, Repr

/-- TS_OL getOldest: retrieve the parent (none embeds a failed retrieval),
    ask it for the ct-sorted instance list and take the first element. -/
def getOldest (parent : Option (List TSIRes)) : Option TSIRes :=
  let rs := match parent with
            | some children => timeSeriesInstances children
            | none => []
  if 0 < rs.length then rs.head? else none

/-- TS_OL handleRetrieveRequest: the oldest instance, or NOT_FOUND when
    there is none. -/
def tsOlHandleRetrieveRequest (parent : Option (List TSIRes)) : VirtualResult :=
  match getOldest parent with
  | none => .error RC.notFound
  | some r => .resource r

/-- TS_OL handleCreateRequest: always OPERATION_NOT_ALLOWED. -/
def tsOlHandleCreateRequest : VirtualResult := .error RC.operationNotAllowed

/-- TS_OL handleUpdateRequest: always OPERATION_NOT_ALLOWED. -/
def tsOlHandleUpdateRequest : VirtualResult := .error RC.operationNotAllowed

/-! ## NotificationManager: checkSubscriptions -/

/-- The notification event types named by the embedded fragments. -/
inductive NET where
  | resourceUpdate
  | resourceDelete
  | createDirectChild
  | deleteDirectChild
  | blockingUpdate
  | blockingRetrieve
  | blockingRetrieveDirectChild
  | reportOnGeneratedMissingDataPoints
deriving DecidableEq, Repr

/-- The part of an internal subscription record that checkSubscriptions
    reads: the subscription ri and the enc filters. -/
structure SubscriptionRecord where
  ri : String
  net : List NET
  chty : Option (List RT)
  atr : Option (List String)
deriving DecidableEq, Repr

/-- The part of the triggering child resource that checkSubscriptions
    reads. -/
structure ChildInfo where
  ri : String
  ty : RT
deriving DecidableEq, Repr

/-- The missing-data state for one subscription. -/
structure MissingDataRec where
  missingDataCurrentNr : Nat
  missingDataNumber : Nat
deriving DecidableEq, Repr

/-- The two notification event types concerning direct children. -/
def childReason (reason : NET) : Bool :=
  reason == NET.createDirectChild || reason == NET.deleteDirectChild

/-- The per-subscription decision of NotificationManager checkSubscriptions:
    whether the loop body calls handleSubscriptionNotification for this
    subscription record. Mirrors the source chain: skip the own subscription
    on direct-child events, require the reason in enc/net, filter by chty on
    direct-child events, intersect enc/atr with the modified attributes on
    updates, compare the missing-data counters for missing-data reports and
    notify for every other reason. Python truthiness: empty lists and absent
    values behave alike in the chty / atr / modifiedAttributes guards; for
    missing-data events the callers always pass the missing-data map with an
    entry for the subscription. -/
def subNotifies (sub : SubscriptionRecord) (reason : NET) (child : Option ChildInfo)
    (modAttrs : Option (List String))
    (missingData : Option (String → Option MissingDataRec)) : Bool :=
  if (match child with
      | some c => sub.ri == c.ri
      | none => false) && childReason reason then false
  else if sub.net.contains reason = false then false
  else if childReason reason then
    match sub.chty with
    | none => true
    | some l =>
        if l.isEmpty then true
        else
          match child with
          | some c => l.contains c.ty
          | none => true
  else if (reason == NET.resourceUpdate) &&
          (match sub.atr with
           | some a => !a.isEmpty
           | none => false) &&
          (match modAttrs with
           | some m => !m.isEmpty
           | none => false) then
    match sub.atr, modAttrs with
    | some a, some m => a.any (fun k => m.contains k)
    | _, _ => false
  else if (reason == NET.reportOnGeneratedMissingDataPoints) && missingData.isSome then
    match missingData with
    | some f =>
        match f sub.ri with
        | some md => md.missingDataNumber ≤ md.missingDataCurrentNr
        | none => false
    | none => false
  else true

/-- NotificationManager checkSubscriptions: nothing for virtual resources,
    otherwise the subscriptions of the parent are walked in order and the
    selected ones are notified; the result lists the subscription records
    for which a notification is produced. -/
def checkSubscriptions (virtualRes : Bool) (subs : List SubscriptionRecord) (reason : NET)
    (child : Option ChildInfo) (modAttrs : Option (List String))
    (missingData : Option (String → Option MissingDataRec)) : List SubscriptionRecord :=
  if virtualRes then []
  else subs.filter (fun s => subNotifies s reason child modAttrs missingData)

/-- The timestamp order on stored batch entries is total. -/
instance : IsTotal BatchEntry (fun a b => a.tstamp ≤ b.tstamp) :=
  ⟨fun a b => Nat.le_total a.tstamp b.tstamp⟩

/-- The timestamp order on stored batch entries is transitive. -/
instance : IsTrans BatchEntry (fun a b => a.tstamp ≤ b.tstamp) :=
  ⟨fun _ _ _ h1 h2 => Nat.le_trans h1 h2⟩

/-- The creation-time order on timeSeriesInstances is total. -/
instance : IsTotal TSIRes (fun a b => a.ct ≤ b.ct) :=
  ⟨fun a b => Nat.le_total a.ct b.ct⟩

/-- The creation-time order on timeSeriesInstances is transitive. -/
instance : IsTrans TSIRes (fun a b => a.ct ≤ b.ct) :=
  ⟨fun _ _ _ h1 h2 => Nat.le_trans h1 h2⟩

/-! ## Concrete instances used to evaluate the embedded functions -/

/-- A concrete SecurityManager environment: ACP checks enabled, no
    registration lists, no wildcard matches, and a single retrievable ACP
    acp1 that grants nothing. -/
def cxSecEnv : SecEnv where
  enableACPChecks := true
  fullAccessAdmin := false
  cseOriginator := "CAdmin"
  cseCsi := "/id-in"
  cseSPRelative := "/id-in/cse-in"
  registrarCSI := "/id-reg"
  allowedCSROriginators := []
  allowedAEOriginators := []
  registeredAE := fun _ => false
  simpleMatch := fun _ _ => false
  typeOf := fun _ => none
  groupMid := fun _ => none
  acpLookup := fun ri => if ri = "acp1" then some ⟨RT.ACP, [], []⟩ else none
  resLookup := fun _ => none

/-- A concrete container resource created by CAe1 whose acpi attribute is
    present but references no ACP. -/
def cxRes : SRes where
  ri := "cnt1"
  ty := RT.CNT
  pi := some "cse-in"
  acpi := some []
  macp := none
  cstn := none
  creator := some "CAe1"
  mayHaveAcpi := true
  inheritACP := false
  isAnnounced := false
  lnk := none
  atRefs := none
  parentOriginator := none
  pv := []
  pvs := []

/-- The same resource with the ACP set enlarged by acp1. -/
def cxResSuper : SRes := { cxRes with acpi := some ["acp1"] }

/-- A SecurityManager environment with one permissive ACP acpAll (pv grants
    every permission to every originator) and the empty ACP acp1. -/
def cxSecEnv2 : SecEnv :=
  { cxSecEnv with
    acpLookup := fun ri =>
      if ri = "acpAll" then some ⟨RT.ACP, [⟨["all"], 63, none⟩], []⟩
      else if ri = "acp1" then some ⟨RT.ACP, [], []⟩
      else none }

/-- A resource whose acpi references the permissive ACP acpAll. -/
def cxRes2 : SRes := { cxRes with acpi := some ["acpAll"] }

end Acme

namespace Acme

/-! # Helper lemmas -/

theorem sendNotificationList_eq_all (sender : String → Bool) (us : List String) :
    sendNotificationList sender us = us.all sender := by
  induction us with
  | nil => rfl
  | cons u us ih =>
      simp only [sendNotificationList, List.all_cons]
      cases sender u <;> simp [ih]

theorem attemptedTargets_eq (sender : String → Bool) (us : List String) :
    attemptedTargets sender us = us.takeWhile sender ++ (us.dropWhile sender).take 1 := by
  induction us with
  | nil => rfl
  | cons u us ih =>
      simp only [attemptedTargets, List.takeWhile, List.dropWhile]
      cases h : sender u <;> simp [ih]

theorem iterateSuccessfulNotifications_none (k : Nat) :
    iterateSuccessfulNotifications k none = none := by
  induction k with
  | zero => rfl
  | succ k ih => simpa [iterateSuccessfulNotifications, stepSuccessfulNotification] using ih

theorem iterateSuccessfulNotifications_closed (k : Nat) :
    ∀ exc0 : Nat, 1 ≤ exc0 → k ≤ exc0 →
      iterateSuccessfulNotifications k (some (some exc0)) =
        if 1 ≤ exc0 - k then some (some (exc0 - k)) else none := by
  induction k with
  | zero =>
      intro exc0 h1 _
      simp [iterateSuccessfulNotifications, Nat.sub_zero, h1]
  | succ k ih =>
      intro exc0 h1 hk
      have hne : exc0 ≠ 0 := by omega
      simp only [iterateSuccessfulNotifications, stepSuccessfulNotification,
        handleExpirationCounter, hne, ne_eq, not_false_eq_true, if_true]
      by_cases h2 : exc0 - 1 < 1
      · have hx : exc0 = 1 := by omega
        subst hx
        simp only [if_pos h2, iterateSuccessfulNotifications_none]
        have : ¬ 1 ≤ 1 - (k + 1) := by omega
        simp [this]
      · have h2' : 2 ≤ exc0 := by omega
        rw [if_neg h2]
        have := ih (exc0 - 1) (by omega) (by omega)
        rw [this]
        have harith : exc0 - 1 - k = exc0 - (k + 1) := by omega
        rw [harith]

theorem crsReceived_toFinset (d : List String) (s : String) :
    (crsReceived d s).toFinset = insert s d.toFinset := by
  unfold crsReceived
  by_cases h : s ∈ d
  · simp only [if_pos h]
    exact (Finset.insert_eq_self.mpr (List.mem_toFinset.mpr h)).symm
  · simp only [if_neg h, List.toFinset_append, List.toFinset_cons, List.toFinset_nil,
      insert_emptyc_eq]
    rw [Finset.union_comm]
    simp [Finset.insert_eq]

theorem crsReceived_nodup (d : List String) (s : String) (h : d.Nodup) :
    (crsReceived d s).Nodup := by
  unfold crsReceived
  by_cases hs : s ∈ d
  · simpa [hs]
  · simp [hs, List.nodup_append, h]

theorem foldl_crsReceived_nodup (surs : List String) :
    ∀ d : List String, d.Nodup → (List.foldl crsReceived d surs).Nodup := by
  induction surs with
  | nil => intro d h; simpa
  | cons s surs ih =>
      intro d h
      simpa [List.foldl_cons] using ih (crsReceived d s) (crsReceived_nodup d s h)

theorem foldl_crsReceived_toFinset (surs : List String) :
    ∀ d : List String,
      (List.foldl crsReceived d surs).toFinset = d.toFinset ∪ surs.toFinset := by
  induction surs with
  | nil => intro d; simp
  | cons s surs ih =>
      intro d
      simp only [List.foldl_cons, ih (crsReceived d s), crsReceived_toFinset,
        List.toFinset_cons]
      rw [Finset.insert_union, Finset.union_insert]

/-! # Claim theorems -/

/-- C10: the notification send loop applies the sender to the targets in
    list order and short-circuits on the first failure: the attempted
    targets are the successful prefix plus at most the first failing target,
    the overall result is the conjunction over all targets (True for an
    empty list), and with a failed overall result the expiration counter
    handling leaves the subscription state untouched, so exc is decremented
    only when every target of the notification was sent successfully. -/
theorem C10_sendNotification_shortCircuit (sender : String → Bool) (us : List String)
    (u : String) (exc : Option Nat) :
    sendNotification (Uris.many us) sender = us.all sender ∧
    sendNotification (Uris.one u) sender = sender u ∧
    sendNotification (Uris.many []) sender = true ∧
    attemptedTargets sender us = us.takeWhile sender ++ (us.dropWhile sender).take 1 ∧
    handleExpirationCounter false exc = some exc := by
  refine ⟨sendNotificationList_eq_all sender us, rfl, rfl, attemptedTargets_eq sender us, ?_⟩
  cases exc <;> rfl

/-- C1 counterexample: the claim quantifies over every non-null expiration
    counter, but with the counter 0 (non-null) and zero successful
    notifications the subscription still exists while exc0 - k = 0 < 1; the
    source guard (result and exc) is false for a zero counter, which is
    treated like an absent one and never decremented. -/
theorem C1_counterexample :
    iterateSuccessfulNotifications 0 (some (some 0)) = some (some 0) ∧
    handleExpirationCounter true (some 0) = some (some 0) ∧
    ¬ (1 ≤ 0 - 0) := by
  refine ⟨rfl, rfl, by decide⟩

/-- C1 (amended): for a subscription whose expiration counter exc0 is at
    least 1, each successful notification decrements the counter and deletes
    the subscription when the decremented value drops below 1; hence after k
    successful notifications (k le exc0) the subscription exists iff
    exc0 - k is at least 1. -/
theorem C1_expirationCounter (exc0 k : Nat) (h1 : 1 ≤ exc0) (hk : k ≤ exc0) :
    (handleExpirationCounter true (some exc0) =
      if exc0 - 1 < 1 then none else some (some (exc0 - 1))) ∧
    ((iterateSuccessfulNotifications k (some (some exc0))).isSome ↔ 1 ≤ exc0 - k) := by
  constructor
  · have hne : exc0 ≠ 0 := by omega
    simp [handleExpirationCounter, hne]
  · rw [iterateSuccessfulNotifications_closed k exc0 h1 hk]
    by_cases h : 1 ≤ exc0 - k <;> simp [h]

/-- C1 witness: exc0 = 3, k = 2. -/
theorem C1_expirationCounter_witness :
    (iterateSuccessfulNotifications 2 (some (some 3))).isSome ↔ 1 ≤ 3 - 2 :=
  (C1_expirationCounter 3 2 (by decide) (by decide)).2

/-- C2 counterexample: the claim fires one notification whenever at least n
    distinct sur values were received, but the source fires only on exact
    equality: with two distinct sur values received in a window of a crs
    with one constituent subscription, the window closes with zero
    notifications. -/
theorem C2_counterexample :
    (List.foldl crsReceived [] ["s1", "s2"]).toFinset.card = 2 ∧
    (crsCheckForNotification (List.foldl crsReceived [] ["s1", "s2"]) 1 true).1 = 0 := by
  constructor <;> rfl

/-- C2 (amended): incoming sur values within a window are deduplicated, and
    when the window closes exactly one aggregated notification referencing
    the crs is fired iff the number of distinct sur values received in that
    window equals the number n of constituent subscriptions (and the crs
    resource retrieval succeeds); otherwise zero notifications are fired;
    the sur list is cleared when the window closes in every case. -/
theorem C2_crsWindow (surs : List String) (subCount : Nat) :
    (List.foldl crsReceived [] surs).Nodup ∧
    (List.foldl crsReceived [] surs).toFinset = surs.toFinset ∧
    ((crsCheckForNotification (List.foldl crsReceived [] surs) subCount true).1 =
      if surs.toFinset.card = subCount then 1 else 0) ∧
    (crsCheckForNotification (List.foldl crsReceived [] surs) subCount false).1 = 0 ∧
    (crsCheckForNotification (List.foldl crsReceived [] surs) subCount true).2 = [] ∧
    (crsCheckForNotification (List.foldl crsReceived [] surs) subCount false).2 = [] := by
  have hnodup : (List.foldl crsReceived [] surs).Nodup :=
    foldl_crsReceived_nodup surs [] List.nodup_nil
  have hfin : (List.foldl crsReceived [] surs).toFinset = surs.toFinset := by
    simpa using foldl_crsReceived_toFinset surs []
  have hlen : (List.foldl crsReceived [] surs).length = surs.toFinset.card := by
    rw [← hfin, List.toFinset_card_of_nodup hnodup]
  refine ⟨hnodup, hfin, ?_, ?_, ?_, ?_⟩
  · unfold crsCheckForNotification
    rw [hlen]
    by_cases h : surs.toFinset.card = subCount <;> simp [h]
  · unfold crsCheckForNotification
    by_cases h : (List.foldl crsReceived [] surs).length = subCount <;> simp [h]
  · unfold crsCheckForNotification
    by_cases h : (List.foldl crsReceived [] surs).length = subCount <;> simp [h]
  · unfold crsCheckForNotification
    by_cases h : (List.foldl crsReceived [] surs).length = subCount <;> simp [h]

/-- C9: a subscription is never notified about its own creation or
    deletion: for a createDirectChild or deleteDirectChild event, every
    subscription record whose ri equals the ri of the triggering child
    resource is skipped by checkSubscriptions and produces no
    notification. -/
theorem C9_noSelfNotification (virtualRes : Bool) (subs : List SubscriptionRecord)
    (reason : NET) (child : Option ChildInfo) (modAttrs : Option (List String))
    (missingData : Option (String → Option MissingDataRec)) (c : ChildInfo)
    (hc : child = some c)
    (hr : reason = NET.createDirectChild ∨ reason = NET.deleteDirectChild) :
    ∀ s ∈ checkSubscriptions virtualRes subs reason child modAttrs missingData,
      s.ri ≠ c.ri := by
  intro s hs
  unfold checkSubscriptions at hs
  by_cases hv : virtualRes = true
  · simp [hv] at hs
  · simp only [Bool.not_eq_true] at hv
    rw [hv] at hs
    simp only [Bool.false_eq_true, if_false] at hs
    have hmem := List.mem_filter.mp hs
    intro heq
    have hch : childReason reason = true := by
      rcases hr with h | h <;> simp [childReason, h]
    have : subNotifies s reason child modAttrs missingData = false := by
      unfold subNotifies
      rw [hc]
      simp [heq, hch]
    rw [this] at hmem
    exact Bool.false_ne_true hmem.2

theorem sendAgg_nonempty (l : List BatchEntry) (ln sendOk : Bool) (h : l ≠ []) :
    sendSubscriptionAggregatedBatchNotification l ln sendOk =
      ([], some (if ln then ((sortByTstamp l).map (fun x => x.request)).drop
                            (((sortByTstamp l).map (fun x => x.request)).length - 1)
                 else (sortByTstamp l).map (fun x => x.request)), sendOk) := by
  unfold sendSubscriptionAggregatedBatchNotification
  have hl : ¬ ((sortByTstamp l).map (fun e => e.request)).length = 0 := by
    simp only [List.length_map, sortByTstamp, List.length_insertionSort]
    intro hc
    exact h (List.eq_nil_of_length_eq_zero hc)
  simp only [hl, if_false, ite_false, if_neg hl]

/-- C3 counterexample: the claim keeps a pending batch in storage after a
    failed send for retry by the guard timer, but the source removes the
    stored batch before the send attempt: after a failed send of a
    one-element batch the stored batch is empty. -/
theorem C3_counterexample :
    (sendSubscriptionAggregatedBatchNotification [⟨0, "n1"⟩] false false).1 = [] ∧
    (sendSubscriptionAggregatedBatchNotification [⟨0, "n1"⟩] false false).2.2 = false := by
  constructor <;> rfl

/-- C3 (amended): each notification for a pair (ri, nu) is stored pending;
    when the stored count reaches bn.num (or the guard timer bn.dur fires
    the aggregation), the pending notifications are aggregated in
    stored-timestamp order into a single payload and sent, only the latest
    one when the ln flag is set; the pending batch is removed from storage
    before the send attempt, so a successful send leaves no pending batch
    and a failed send also leaves no pending batch (there is no retry of the
    removed notifications by the guard timer). -/
theorem C3_batchNotifications (pending : List BatchEntry) (t : Nat) (req : String)
    (n : Nat) (ln durOk sendOk : Bool) (e : BatchEntry) (es : List BatchEntry) :
    (pending.length + 1 < n ∨ n = 0 →
      storeBatchNotification pending t req (some n) ln durOk sendOk =
        (pending ++ [⟨t, req⟩], none, durOk)) ∧
    (storeBatchNotification pending t req none ln durOk sendOk =
        (pending ++ [⟨t, req⟩], none, durOk)) ∧
    (0 < n → n ≤ pending.length + 1 →
      storeBatchNotification pending t req (some n) ln durOk sendOk =
        ([], some (if ln then
                     ((sortByTstamp (pending ++ [⟨t, req⟩])).map (fun x => x.request)).drop
                       (((sortByTstamp (pending ++ [⟨t, req⟩])).map
                           (fun x => x.request)).length - 1)
                   else (sortByTstamp (pending ++ [⟨t, req⟩])).map (fun x => x.request)),
         true)) ∧
    ((sendSubscriptionAggregatedBatchNotification (e :: es) ln sendOk).1 = []) ∧
    ((sendSubscriptionAggregatedBatchNotification (e :: es) ln sendOk).2.2 = sendOk) ∧
    List.Sorted (fun a b => a.tstamp ≤ b.tstamp) (sortByTstamp pending) ∧
    (sortByTstamp pending).Perm pending := by
  have hne : pending ++ [(⟨t, req⟩ : BatchEntry)] ≠ [] := by simp
  have hlen1 : (pending ++ [(⟨t, req⟩ : BatchEntry)]).length = pending.length + 1 := by simp
  refine ⟨?_, ?_, ?_, ?_, ?_, ?_, ?_⟩
  · intro h
    unfold storeBatchNotification
    have hguard : ¬ (n ≠ 0 ∧ n ≤ (pending ++ [(⟨t, req⟩ : BatchEntry)]).length) := by
      rw [hlen1]; omega
    simp only [if_neg hguard]
    cases durOk <;> rfl
  · unfold storeBatchNotification
    cases durOk <;> rfl
  · intro h0 hle
    unfold storeBatchNotification
    have hguard : n ≠ 0 ∧ n ≤ (pending ++ [(⟨t, req⟩ : BatchEntry)]).length := by
      rw [hlen1]; omega
    simp only [if_pos hguard]
    rw [sendAgg_nonempty _ ln sendOk hne]
  · rw [sendAgg_nonempty (e :: es) ln sendOk (by simp)]
  · rw [sendAgg_nonempty (e :: es) ln sendOk (by simp)]
  · exact List.sorted_insertionSort _ pending
  · exact List.perm_insertionSort _ pending

/-- C3 witness: a batch with bn.num = 1 aggregates and sends at once. -/
theorem C3_batchNotifications_witness :
    storeBatchNotification [] 5 "x" (some 1) false true true = ([], some ["x"], true) :=
  (C3_batchNotifications [] 5 "x" 1 false true true ⟨0, ""⟩ []).2.2.1
    (by decide) (by decide)

/-- C8: a CREATE and an UPDATE request targeting the oldest virtual child of
    a time-series always fail with OPERATION_NOT_ALLOWED; a RETRIEVE
    resolves through the parent instances ordered by creation time ct and
    returns the first element of the ct-sorted instance list (a member with
    minimal ct), and fails with NOT_FOUND when the parent cannot be
    retrieved or has no instances. -/
theorem C8_virtualOldest :
    tsOlHandleCreateRequest = VirtualResult.error RC.operationNotAllowed ∧
    tsOlHandleUpdateRequest = VirtualResult.error RC.operationNotAllowed ∧
    tsOlHandleRetrieveRequest none = VirtualResult.error RC.notFound ∧
    tsOlHandleRetrieveRequest (some []) = VirtualResult.error RC.notFound ∧
    (∀ children : List TSIRes, children ≠ [] →
      ∃ r, tsOlHandleRetrieveRequest (some children) = VirtualResult.resource r ∧
        (timeSeriesInstances children).head? = some r ∧
        r ∈ children ∧ ∀ x ∈ children, r.ct ≤ x.ct) := by
  refine ⟨rfl, rfl, rfl, rfl, ?_⟩
  intro children hne
  have hperm : (timeSeriesInstances children).Perm children :=
    List.perm_insertionSort _ children
  have hsorted : List.Sorted (fun a b : TSIRes => a.ct ≤ b.ct)
      (timeSeriesInstances children) := List.sorted_insertionSort _ children
  have hlen : (timeSeriesInstances children).length = children.length := hperm.length_eq
  have hne2 : timeSeriesInstances children ≠ [] := by
    intro hc
    apply hne
    rw [← List.length_eq_zero, ← hlen, hc]
    rfl
  cases hs : timeSeriesInstances children with
  | nil => exact absurd hs hne2
  | cons r rest =>
      rw [hs] at hsorted
      have hmem : r ∈ children :=
        hperm.mem_iff.mp (by rw [hs]; exact List.mem_cons_self r rest)
      refine ⟨r, ?_, rfl, hmem, ?_⟩
      · unfold tsOlHandleRetrieveRequest getOldest
        dsimp only
        rw [hs]
        simp
      · intro x hx
        have hx2 : x ∈ timeSeriesInstances children := hperm.mem_iff.mpr hx
        rw [hs] at hx2
        rcases List.mem_cons.mp hx2 with h | h
        · rw [h]
        · exact List.rel_of_sorted_cons hsorted x h

/-- C8 witness: two instances with ct 5 and 3; the oldest is the one with
    ct 3. -/
theorem C8_virtualOldest_witness :
    ∃ r, tsOlHandleRetrieveRequest (some [⟨"tsi2", 5⟩, ⟨"tsi1", 3⟩]) =
        VirtualResult.resource r ∧
      (timeSeriesInstances [⟨"tsi2", 5⟩, ⟨"tsi1", 3⟩]).head? = some r ∧
      r ∈ [(⟨"tsi2", 5⟩ : TSIRes), ⟨"tsi1", 3⟩] ∧
      ∀ x ∈ [(⟨"tsi2", 5⟩ : TSIRes), ⟨"tsi1", 3⟩], r.ct ≤ x.ct :=
  C8_virtualOldest.2.2.2.2 [⟨"tsi2", 5⟩, ⟨"tsi1", 3⟩] (by decide)

/-- C9 witness: a deleteDirectChild event for the subscription itself
    produces no notification at all. -/
theorem C9_noSelfNotification_witness :
    checkSubscriptions false [⟨"sub1", [NET.deleteDirectChild], none, none⟩]
      NET.deleteDirectChild (some ⟨"sub1", RT.SUB⟩) none none = [] := by
  cases hres : checkSubscriptions false [⟨"sub1", [NET.deleteDirectChild], none, none⟩]
      NET.deleteDirectChild (some ⟨"sub1", RT.SUB⟩) none none with
  | nil => rfl
  | cons a tl =>
      exfalso
      have hmem : a ∈ checkSubscriptions false
          [⟨"sub1", [NET.deleteDirectChild], none, none⟩]
          NET.deleteDirectChild (some ⟨"sub1", RT.SUB⟩) none none := by
        rw [hres]
        exact List.mem_cons_self a tl
      have hri := C9_noSelfNotification false
        [⟨"sub1", [NET.deleteDirectChild], none, none⟩]
        NET.deleteDirectChild (some ⟨"sub1", RT.SUB⟩) none none ⟨"sub1", RT.SUB⟩ rfl
        (Or.inr rfl) a hmem
      have hmem2 := hmem
      unfold checkSubscriptions at hmem2
      rw [if_neg (by simp)] at hmem2
      have hsub := List.mem_of_mem_filter hmem2
      rw [List.mem_singleton.mp hsub] at hri
      exact hri rfl

theorem verifyNus_spec (sameID : String → String → Bool) (resp : String → NotifyResponse)
    (prev : Option (List String)) (orig : String) (nus : List String) :
    ((verifyNusInSubscription sameID resp prev orig nus).2 =
      (nus.filter (eligibleNu sameID prev orig)).all (sendVerificationRequestSingle resp)) ∧
    ((verifyNusInSubscription sameID resp prev orig nus).2 = true →
      (verifyNusInSubscription sameID resp prev orig nus).1 =
        nus.filter (eligibleNu sameID prev orig)) := by
  induction nus with
  | nil => exact ⟨rfl, fun _ => rfl⟩
  | cons nu rest ih =>
      by_cases hnew : isNewNu prev nu = true
      · by_cases hskip : nu = orig ∨ sameID nu orig = true
        · have helig : eligibleNu sameID prev orig nu = false := by
            unfold eligibleNu
            rcases hskip with h | h
            · simp [h]
            · simp [h]
          have hv : verifyNusInSubscription sameID resp prev orig (nu :: rest) =
              verifyNusInSubscription sameID resp prev orig rest := by
            simp only [verifyNusInSubscription]
            rw [if_pos hnew, if_pos hskip]
          rw [hv]
          simp only [List.filter_cons, helig]
          exact ih
        · have helig : eligibleNu sameID prev orig nu = true := by
            unfold eligibleNu
            push_neg at hskip
            simp [hnew, hskip.1, hskip.2]
          by_cases hsend : sendVerificationRequestSingle resp nu = true
          · have hv : verifyNusInSubscription sameID resp prev orig (nu :: rest) =
                ((nu :: (verifyNusInSubscription sameID resp prev orig rest).1),
                 (verifyNusInSubscription sameID resp prev orig rest).2) := by
              simp only [verifyNusInSubscription]
              rw [if_pos hnew, if_neg hskip, if_pos hsend]
            rw [hv]
            simp only [List.filter_cons, helig, if_true, List.all_cons, hsend,
              Bool.true_and]
            exact ⟨ih.1, fun h => by rw [ih.2 h]⟩
          · have hv : verifyNusInSubscription sameID resp prev orig (nu :: rest) =
                ([nu], false) := by
              simp only [verifyNusInSubscription]
              rw [if_pos hnew, if_neg hskip, if_neg hsend]
            rw [hv]
            simp only [List.filter_cons, helig, if_true, List.all_cons]
            constructor
            · simp [Bool.not_eq_true] at hsend
              simp [hsend]
            · intro h
              exact absurd h (by simp)
      · have helig : eligibleNu sameID prev orig nu = false := by
          unfold eligibleNu
          simp [Bool.not_eq_true] at hnew
          simp [hnew]
        have hv : verifyNusInSubscription sameID resp prev orig (nu :: rest) =
            verifyNusInSubscription sameID resp prev orig rest := by
          simp only [verifyNusInSubscription]
          rw [if_neg (by simp [hnew])]
        rw [hv]
        simp only [List.filter_cons, helig]
        exact ih

/-- C4: on subscription and cross-resource-subscription CREATE and UPDATE a
    verification request is sent to exactly those notification target uris
    that are new (not in the previous nu list) and not the originator; the
    overall verification succeeds iff every such target verifies; when one
    fails, every entry point returns the error result with rsc
    SUBSCRIPTION_VERIFICATION_INITIATION_FAILED and the record is not
    stored; when all succeed the record is stored. -/
theorem C4_verificationRequests (sameID : String → String → Bool)
    (resp : String → NotifyResponse) (nus previousNus : List String) (orig : String)
    (dbOk : Bool) :
    ((verifyNusInSubscription sameID resp none orig nus).2 =
      (nus.filter (eligibleNu sameID none orig)).all (sendVerificationRequestSingle resp)) ∧
    ((verifyNusInSubscription sameID resp none orig nus).2 = true →
      (verifyNusInSubscription sameID resp none orig nus).1 =
        nus.filter (eligibleNu sameID none orig)) ∧
    ((verifyNusInSubscription sameID resp (some previousNus) orig nus).2 =
      (nus.filter (eligibleNu sameID (some previousNus) orig)).all
        (sendVerificationRequestSingle resp)) ∧
    ((verifyNusInSubscription sameID resp (some previousNus) orig nus).2 = true →
      (verifyNusInSubscription sameID resp (some previousNus) orig nus).1 =
        nus.filter (eligibleNu sameID (some previousNus) orig)) ∧
    ((nus.filter (eligibleNu sameID none orig)).all (sendVerificationRequestSingle resp)
        = false →
      addSubscription sameID resp nus orig dbOk =
        SubCrudOutcome.error RC.subscriptionVerificationInitiationFailed ∧
      addCrossResourceSubscription sameID resp nus orig =
        SubCrudOutcome.error RC.subscriptionVerificationInitiationFailed) ∧
    ((nus.filter (eligibleNu sameID (some previousNus) orig)).all
        (sendVerificationRequestSingle resp) = false →
      updateSubscription sameID resp nus previousNus orig dbOk =
        SubCrudOutcome.error RC.subscriptionVerificationInitiationFailed ∧
      updateCrossResourceSubscription sameID resp nus previousNus orig =
        SubCrudOutcome.error RC.subscriptionVerificationInitiationFailed) ∧
    ((nus.filter (eligibleNu sameID none orig)).all (sendVerificationRequestSingle resp)
        = true →
      addSubscription sameID resp nus orig true = SubCrudOutcome.stored ∧
      addCrossResourceSubscription sameID resp nus orig = SubCrudOutcome.stored) ∧
    ((nus.filter (eligibleNu sameID (some previousNus) orig)).all
        (sendVerificationRequestSingle resp) = true →
      updateSubscription sameID resp nus previousNus orig true = SubCrudOutcome.stored ∧
      updateCrossResourceSubscription sameID resp nus previousNus orig =
        SubCrudOutcome.stored) := by
  have hn := verifyNus_spec sameID resp none orig nus
  have hp := verifyNus_spec sameID resp (some previousNus) orig nus
  refine ⟨hn.1, hn.2, hp.1, hp.2, ?_, ?_, ?_, ?_⟩
  · intro h
    have hv : (verifyNusInSubscription sameID resp none orig nus).2 = false := by
      rw [hn.1, h]
    constructor
    · unfold addSubscription
      rw [hv]
      simp
    · unfold addCrossResourceSubscription
      rw [hv]
      simp
  · intro h
    have hv : (verifyNusInSubscription sameID resp (some previousNus) orig nus).2
        = false := by rw [hp.1, h]
    constructor
    · unfold updateSubscription
      rw [hv]
      simp
    · unfold updateCrossResourceSubscription
      rw [hv]
      simp
  · intro h
    have hv : (verifyNusInSubscription sameID resp none orig nus).2 = true := by
      rw [hn.1, h]
    constructor
    · unfold addSubscription
      rw [hv]
      simp
    · unfold addCrossResourceSubscription
      rw [hv]
      simp
  · intro h
    have hv : (verifyNusInSubscription sameID resp (some previousNus) orig nus).2
        = true := by rw [hp.1, h]
    constructor
    · unfold updateSubscription
      rw [hv]
      simp
    · unfold updateCrossResourceSubscription
      rw [hv]
      simp

/-- C5: on an UPDATE whose payload contains acpi, a second attribute in the
    payload yields BAD_REQUEST; without a current acpi list the update is
    allowed iff the ID part of the originator equals the creator of the
    target; with a current acpi list it is allowed iff the originator ID
    satisfies the UPDATE self permission (pvs) of at least one referenced
    (retrievable) ACP; otherwise ORIGINATOR_HAS_NO_PRIVILEGE is raised; the
    check reports an acpi update iff the payload contains acpi. -/
theorem C5_acpiUpdatePermission (env : SecEnv) (payloadKeys : List String)
    (targetAcpi : Option (List String)) (targetCreator : Option String) (orig : String) :
    (checkAcpiUpdatePermission env payloadKeys targetAcpi targetCreator orig =
        AcpiUpdateOutcome.notAcpiUpdate ↔ payloadKeys.contains "acpi" = false) ∧
    (payloadKeys.contains "acpi" = true → (∃ k ∈ payloadKeys, k ≠ "acpi") →
      checkAcpiUpdatePermission env payloadKeys targetAcpi targetCreator orig =
        AcpiUpdateOutcome.badRequest) ∧
    (targetAcpi = none ∨ targetAcpi = some [] →
      (checkAcpiUpdatePermission env ["acpi"] targetAcpi targetCreator orig =
          AcpiUpdateOutcome.acpiUpdateAllowed ↔
        targetCreator = some (getIdFromOriginator orig)) ∧
      (targetCreator ≠ some (getIdFromOriginator orig) →
        checkAcpiUpdatePermission env ["acpi"] targetAcpi targetCreator orig =
          AcpiUpdateOutcome.noPrivilege)) ∧
    (∀ l, targetAcpi = some l → l ≠ [] →
      (checkAcpiUpdatePermission env ["acpi"] targetAcpi targetCreator orig =
          AcpiUpdateOutcome.acpiUpdateAllowed ↔
        l.any (fun acpRi =>
          match env.acpLookup acpRi with
          | none => false
          | some acp =>
              checkACPSelfPermission env acp (getIdFromOriginator orig)
                Permission.UPDATE) = true) ∧
      (l.any (fun acpRi =>
          match env.acpLookup acpRi with
          | none => false
          | some acp =>
              checkACPSelfPermission env acp (getIdFromOriginator orig)
                Permission.UPDATE) = false →
        checkAcpiUpdatePermission env ["acpi"] targetAcpi targetCreator orig =
          AcpiUpdateOutcome.noPrivilege)) := by
  refine ⟨?_, ?_, ?_, ?_⟩
  · unfold checkAcpiUpdatePermission
    by_cases hc : payloadKeys.contains "acpi" = true
    · rw [hc]
      simp only [if_true, iff_false, Bool.true_eq_false]
      intro h
      repeat' split at h
      all_goals exact AcpiUpdateOutcome.noConfusion h
    · simp only [Bool.not_eq_true] at hc
      rw [hc]
      simp
  · intro hc hother
    have hmem : "acpi" ∈ payloadKeys := by simpa using hc
    obtain ⟨k, hk, hne⟩ := hother
    have hlen : 1 < payloadKeys.length := by
      cases payloadKeys with
      | nil => simp at hmem
      | cons x tl =>
          cases tl with
          | nil =>
              have h1 : k = x := by simpa using hk
              have h2 : "acpi" = x := by simpa using hmem
              exact absurd (h1.trans h2.symm) hne
          | cons y tl2 => simp [List.length_cons]
    unfold checkAcpiUpdatePermission
    simp [hmem, hlen]
  · intro hTa
    have hlen : ¬ (1 < (["acpi"] : List String).length) := by simp
    constructor
    · unfold checkAcpiUpdatePermission
      rcases hTa with h | h <;> rw [h] <;>
        simp only [List.contains_cons, BEq.refl, Bool.true_or, if_true, hlen, if_false] <;>
        by_cases hcr : targetCreator = some (getIdFromOriginator orig) <;>
        simp [hcr]
    · intro hcr
      unfold checkAcpiUpdatePermission
      rcases hTa with h | h <;> rw [h] <;>
        simp [hlen, hcr]
  · intro l hTa hne
    have hlem : checkAcpiUpdatePermission env ["acpi"] targetAcpi targetCreator orig =
        (if l.any (fun acpRi =>
            match env.acpLookup acpRi with
            | none => false
            | some acp =>
                checkACPSelfPermission env acp (getIdFromOriginator orig)
                  Permission.UPDATE) then AcpiUpdateOutcome.acpiUpdateAllowed
         else AcpiUpdateOutcome.noPrivilege) := by
      unfold checkAcpiUpdatePermission
      rw [hTa]
      have hl : l.isEmpty = false := by
        cases l
        · exact absurd rfl hne
        · rfl
      simp [hl]
    rw [hlem]
    constructor
    · by_cases hany : l.any (fun acpRi =>
          match env.acpLookup acpRi with
          | none => false
          | some acp =>
              checkACPSelfPermission env acp (getIdFromOriginator orig)
                Permission.UPDATE) = true <;> simp [hany]
    · intro hany
      simp [hany]

/-- C4 witness: one new target that verifies with OK; the subscription is
    stored. -/
theorem C4_verificationRequests_witness :
    addSubscription (fun _ _ => false) (fun _ => ⟨true, RC.OK⟩) ["u1"] "orig" true =
      SubCrudOutcome.stored :=
  ((C4_verificationRequests (fun _ _ => false) (fun _ => ⟨true, RC.OK⟩) ["u1"] []
    "orig" true).2.2.2.2.2.2.1 (by decide)).1

/-- C5 witness: an acpi-only payload on a resource without acpi, updated by
    its creator. -/
theorem C5_acpiUpdatePermission_witness :
    checkAcpiUpdatePermission cxSecEnv ["acpi"] none (some "CAe1") "CAe1" =
        AcpiUpdateOutcome.acpiUpdateAllowed ↔
      some "CAe1" = some (getIdFromOriginator "CAe1") :=
  ((C5_acpiUpdatePermission cxSecEnv ["acpi"] none (some "CAe1") "CAe1").2.2.1
    (Or.inl rfl)).1

theorem lookup_cons_self {V : Type} (k : String) (v : Option V) (rest : Doc V) :
    List.lookup k ((k, v) :: rest) = some v := by
  simp [List.lookup]

theorem lookup_cons_ne {V : Type} {k2 k1 : String} (v1 : Option V) (rest : Doc V)
    (h : ¬ k2 = k1) :
    List.lookup k2 ((k1, v1) :: rest) = List.lookup k2 rest := by
  simp only [List.lookup, show (k2 == k1) = false from beq_eq_false_iff_ne.mpr h]

theorem lookup_setKey {V : Type} (d : Doc V) (k k2 : String) (v : Option V) :
    (setKey d k v).lookup k2 = if k2 = k then some v else d.lookup k2 := by
  induction d with
  | nil =>
      have hs : setKey ([] : Doc V) k v = [(k, v)] := rfl
      rw [hs]
      by_cases h : k2 = k
      · subst h
        rw [lookup_cons_self, if_pos rfl]
      · rw [lookup_cons_ne v ([] : Doc V) h, if_neg h]
  | cons kv rest ih =>
      obtain ⟨k1, v1⟩ := kv
      by_cases h1 : k1 = k
      · have hs : setKey ((k1, v1) :: rest) k v = (k, v) :: rest := by
          simp [setKey, h1]
        rw [hs]
        by_cases h2 : k2 = k
        · subst h2
          rw [lookup_cons_self, if_pos rfl]
        · rw [lookup_cons_ne v rest h2, if_neg h2,
            lookup_cons_ne v1 rest (fun hc => h2 (hc.trans h1))]
      · have hs : setKey ((k1, v1) :: rest) k v = (k1, v1) :: setKey rest k v := by
          simp [setKey, h1]
        rw [hs]
        by_cases h2 : k2 = k1
        · subst h2
          rw [lookup_cons_self, if_neg h1, lookup_cons_self]
        · rw [lookup_cons_ne v1 (setKey rest k v) h2, lookup_cons_ne v1 rest h2, ih]

theorem lookup_deleteKey {V : Type} (d : Doc V) (k k2 : String) :
    (deleteKey k d).lookup k2 = if k2 = k then none else d.lookup k2 := by
  induction d with
  | nil => by_cases h : k2 = k <;> simp [deleteKey, List.lookup, h]
  | cons kv rest ih =>
      obtain ⟨k1, v1⟩ := kv
      by_cases h1 : k1 = k
      · subst h1
        have hd : deleteKey k1 ((k1, v1) :: rest) = deleteKey k1 rest := by
          simp [deleteKey, List.filter_cons]
        rw [hd, ih]
        by_cases h2 : k2 = k1
        · simp [h2]
        · rw [if_neg h2, if_neg h2, lookup_cons_ne v1 rest h2]
      · have hd : deleteKey k ((k1, v1) :: rest) = (k1, v1) :: deleteKey k rest := by
          simp [deleteKey, List.filter_cons, h1]
        rw [hd]
        by_cases h2 : k2 = k1
        · subst h2
          rw [lookup_cons_self, if_neg h1, lookup_cons_self]
        · rw [lookup_cons_ne v1 (deleteKey k rest) h2, lookup_cons_ne v1 rest h2, ih]

theorem lookup_eq_none_of_not_mem_keys {V : Type} (d : Doc V) (k : String)
    (h : k ∉ d.map Prod.fst) : d.lookup k = none := by
  induction d with
  | nil => rfl
  | cons kv rest ih =>
      obtain ⟨k1, v1⟩ := kv
      simp only [List.map_cons, List.mem_cons] at h
      push_neg at h
      rw [lookup_cons_ne v1 rest h.1, ih h.2]

theorem lookup_of_mem_nodup {V : Type} (d : Doc V) (k : String) (v : Option V)
    (hmem : (k, v) ∈ d) (hnodup : (d.map Prod.fst).Nodup) : d.lookup k = some v := by
  induction d with
  | nil => simp at hmem
  | cons kv rest ih =>
      obtain ⟨k1, v1⟩ := kv
      simp only [List.map_cons, List.nodup_cons] at hnodup
      rcases List.mem_cons.mp hmem with h | h
      · obtain ⟨h1, h2⟩ := Prod.mk.injEq k v k1 v1 |>.mp h
        subst h1
        subst h2
        exact lookup_cons_self k v rest
      · have hk : ¬ k = k1 := by
          intro hc
          subst hc
          exact hnodup.1 (List.mem_map.mpr ⟨(k, v), h, rfl⟩)
        rw [lookup_cons_ne v1 rest hk, ih h hnodup.2]

theorem lookup_mergeDoc {V : Type} (json : Doc V) :
    ∀ d : Doc V, (json.map Prod.fst).Nodup → ∀ k : String,
      (mergeDoc d json).lookup k =
        (match json.lookup k with
         | some v => some v
         | none => d.lookup k) := by
  induction json with
  | nil => intro d _ k; rfl
  | cons kv rest ih =>
      intro d hnodup k
      obtain ⟨k0, v0⟩ := kv
      simp only [List.map_cons, List.nodup_cons] at hnodup
      have hmerge : mergeDoc d ((k0, v0) :: rest) = mergeDoc (setKey d k0 v0) rest := rfl
      rw [hmerge, ih (setKey d k0 v0) hnodup.2 k]
      by_cases h : k = k0
      · subst h
        have hrest : rest.lookup k = none :=
          lookup_eq_none_of_not_mem_keys rest k hnodup.1
        rw [hrest, lookup_cons_self]
        simp [lookup_setKey]
      · rw [lookup_cons_ne v0 rest h]
        cases hr : rest.lookup k with
        | some v => rfl
        | none => simp [lookup_setKey, h]

theorem tabUpdate_foldl_map {V : Type} (q : Doc V → Bool) (ks : List (String × Option V)) :
    ∀ t : List (Doc V),
      ks.foldl (fun tb kv => tabUpdate tb q (deleteKey kv.1)) t =
        t.map (fun d =>
          ks.foldl (fun dd kv => if q dd then deleteKey kv.1 dd else dd) d) := by
  induction ks with
  | nil => intro t; simp
  | cons kv ks ih =>
      intro t
      rw [List.foldl_cons, ih (tabUpdate t q (deleteKey kv.1))]
      unfold tabUpdate
      rw [List.map_map]
      rfl

theorem foldDelete_unmatched {V : Type} [DecidableEq V] (rv : V)
    (ks : List (String × Option V)) (dd : Doc V) (h : matchesRi rv dd = false) :
    ks.foldl (fun x kv => if matchesRi rv x then deleteKey kv.1 x else x) dd = dd := by
  induction ks with
  | nil => rfl
  | cons kv ks ih =>
      rw [List.foldl_cons, if_neg (by simp [h])]
      exact ih

theorem foldDelete_spec {V : Type} [DecidableEq V] (rv : V)
    (ks : List (String × Option V)) :
    ∀ dd : Doc V, dd.lookup "ri" = some (some rv) → (∀ kv ∈ ks, kv.1 ≠ "ri") →
      ((ks.foldl (fun x kv => if matchesRi rv x then deleteKey kv.1 x else x)
          dd).lookup "ri" = some (some rv) ∧
       (∀ k, (∃ kv ∈ ks, kv.1 = k) →
         (ks.foldl (fun x kv => if matchesRi rv x then deleteKey kv.1 x else x)
            dd).lookup k = none) ∧
       (∀ k, (∀ kv ∈ ks, kv.1 ≠ k) →
         (ks.foldl (fun x kv => if matchesRi rv x then deleteKey kv.1 x else x)
            dd).lookup k = dd.lookup k)) := by
  induction ks with
  | nil =>
      intro dd hdd _
      exact ⟨hdd, fun k hk => absurd hk (by simp), fun k _ => rfl⟩
  | cons kv ks ih =>
      intro dd hdd hks
      have hmatch : matchesRi rv dd = true := by simp [matchesRi, hdd]
      have hstep : (kv :: ks).foldl
          (fun x kv => if matchesRi rv x then deleteKey kv.1 x else x) dd =
          ks.foldl (fun x kv => if matchesRi rv x then deleteKey kv.1 x else x)
            (deleteKey kv.1 dd) := by
        rw [List.foldl_cons, if_pos (by simp [hmatch])]
      have hkv : kv.1 ≠ "ri" := hks kv (List.mem_cons_self kv ks)
      have hdd1 : (deleteKey kv.1 dd).lookup "ri" = some (some rv) := by
        rw [lookup_deleteKey, if_neg (fun hc => hkv hc.symm), hdd]
      have hks1 : ∀ x ∈ ks, x.1 ≠ "ri" := fun x hx => hks x (List.mem_cons_of_mem kv hx)
      have hih := ih (deleteKey kv.1 dd) hdd1 hks1
      rw [hstep]
      refine ⟨hih.1, ?_, ?_⟩
      · intro k hk
        by_cases hk2 : ∃ x ∈ ks, x.1 = k
        · exact hih.2.1 k hk2
        · push_neg at hk2
          have hkvk : kv.1 = k := by
            rcases hk with ⟨x, hx, hxk⟩
            rcases List.mem_cons.mp hx with h | h
            · rw [← h]; exact hxk
            · exact absurd hxk (hk2 x h)
          rw [hih.2.2 k hk2, lookup_deleteKey, if_pos hkvk.symm]
      · intro k hk
        have hk2 : ∀ x ∈ ks, x.1 ≠ k := fun x hx => hk x (List.mem_cons_of_mem kv hx)
        rw [hih.2.2 k hk2, lookup_deleteKey,
          if_neg (fun hc => hk kv (List.mem_cons_self kv ks) hc.symm)]

theorem updateResource_eq {V : Type} [DecidableEq V] (t : List (Doc V)) (rv : V)
    (json : Doc V) :
    updateResource t rv json =
      (t.map (fun d =>
         (json.filter (fun kv => kv.2 = none)).foldl
           (fun x kv => if matchesRi rv x then deleteKey kv.1 x else x)
           (if matchesRi rv d then mergeDoc d json else d)),
       json.filter (fun kv => kv.2 ≠ none)) := by
  unfold updateResource
  dsimp only
  rw [tabUpdate_foldl_map]
  unfold tabUpdate
  rw [List.map_map]
  rfl

/-- C6: the update operation of the storage binding removes every attribute
    whose value is the null sentinel in the input from the stored record and
    from the returned resource json (it is not stored with a null value); a
    subsequent retrieval of the resource by ri returns a record without that
    attribute; attributes not set to null carry their updated values. -/
theorem C6_updateNullFieldRemoval {V : Type} [DecidableEq V] (t : List (Doc V)) (rv : V)
    (json : Doc V) (hkeys : (json.map Prod.fst).Nodup)
    (hri : json.lookup "ri" = some (some rv)) :
    (∀ k, (k, none) ∈ json →
      (∀ d ∈ (updateResource t rv json).1, matchesRi rv d = true → d.lookup k = none) ∧
      (updateResource t rv json).2.lookup k = none) ∧
    (∀ k v, (k, some v) ∈ json →
      (∀ d ∈ (updateResource t rv json).1, matchesRi rv d = true →
        d.lookup k = some (some v)) ∧
      (updateResource t rv json).2.lookup k = some (some v)) ∧
    (∀ d, retrieveResourceRi (updateResource t rv json).1 rv = some d →
      (∀ k, (k, none) ∈ json → d.lookup k = none) ∧
      (∀ k v, (k, some v) ∈ json → d.lookup k = some (some v))) := by
  have hri_not_null : ("ri", (none : Option V)) ∉ json := by
    intro hmem
    have hx := lookup_of_mem_nodup json "ri" none hmem hkeys
    rw [hri] at hx
    simp at hx
  have hnullne : ∀ kv ∈ json.filter (fun kv => kv.2 = none), kv.1 ≠ "ri" := by
    intro kv hkv hc
    have hj := List.mem_filter.mp hkv
    apply hri_not_null
    have h2 : kv.2 = none := by simpa using hj.2
    have hkveq : kv = ("ri", (none : Option V)) := by
      obtain ⟨a, b⟩ := kv
      simp only at hc h2
      rw [hc, h2]
    rw [← hkveq]
    exact hj.1
  -- the final form of a document that matched the ri query
  have hdoc : ∀ d0 : Doc V, matchesRi rv d0 = true →
      (∀ k, (k, none) ∈ json →
        ((json.filter (fun kv => kv.2 = none)).foldl
          (fun x kv => if matchesRi rv x then deleteKey kv.1 x else x)
          (mergeDoc d0 json)).lookup k = none) ∧
      (∀ k v, (k, some v) ∈ json →
        ((json.filter (fun kv => kv.2 = none)).foldl
          (fun x kv => if matchesRi rv x then deleteKey kv.1 x else x)
          (mergeDoc d0 json)).lookup k = some (some v)) := by
    intro d0 _
    have hd1ri : (mergeDoc d0 json).lookup "ri" = some (some rv) := by
      rw [lookup_mergeDoc json d0 hkeys "ri", hri]
    have hspec := foldDelete_spec rv (json.filter (fun kv => kv.2 = none))
      (mergeDoc d0 json) hd1ri hnullne
    constructor
    · intro k hk
      refine hspec.2.1 k ⟨(k, none), List.mem_filter.mpr ⟨hk, by simp⟩, rfl⟩
    · intro k v hk
      have hnotnull : ∀ kv ∈ json.filter (fun kv => kv.2 = none), kv.1 ≠ k := by
        intro kv hkv hc
        have hj := List.mem_filter.mp hkv
        have h2 : kv.2 = none := by simpa using hj.2
        have hkm : (k, (none : Option V)) ∈ json := by
          have hkveq : kv = (k, (none : Option V)) := by
            obtain ⟨a, b⟩ := kv
            simp only at hc h2
            rw [hc, h2]
          rw [← hkveq]
          exact hj.1
        have hx1 := lookup_of_mem_nodup json k none hkm hkeys
        have hx2 := lookup_of_mem_nodup json k (some v) hk hkeys
        rw [hx1] at hx2
        simp at hx2
      rw [hspec.2.2 k hnotnull, lookup_mergeDoc json d0 hkeys k,
        lookup_of_mem_nodup json k (some v) hk hkeys]
  -- membership in the updated table
  have hmem_table : ∀ d, d ∈ (updateResource t rv json).1 → matchesRi rv d = true →
      (∀ k, (k, none) ∈ json → d.lookup k = none) ∧
      (∀ k v, (k, some v) ∈ json → d.lookup k = some (some v)) := by
    intro d hd hmatch
    rw [updateResource_eq] at hd
    dsimp only at hd
    obtain ⟨d0, hd0, hmap⟩ := List.mem_map.mp hd
    by_cases hm0 : matchesRi rv d0 = true
    · rw [if_pos hm0] at hmap
      rw [← hmap]
      exact ⟨(hdoc d0 hm0).1, (hdoc d0 hm0).2⟩
    · rw [if_neg hm0] at hmap
      rw [foldDelete_unmatched rv _ d0 (Bool.not_eq_true _ |>.mp hm0)] at hmap
      rw [← hmap] at hmatch
      exact absurd hmatch hm0
  have hclean_keys : ((json.filter (fun kv => kv.2 ≠ none)).map Prod.fst).Nodup :=
    ((List.filter_sublist json).map Prod.fst).nodup hkeys
  have hclean1 : ∀ k, (k, (none : Option V)) ∈ json →
      (json.filter (fun kv => kv.2 ≠ none)).lookup k = none := by
    intro k hk
    apply lookup_eq_none_of_not_mem_keys
    intro hmem
    obtain ⟨kv, hkv, hkvk⟩ := List.mem_map.mp hmem
    have hj := List.mem_filter.mp hkv
    have h2 : kv.2 ≠ none := by simpa using hj.2
    have hx1 := lookup_of_mem_nodup json k none hk hkeys
    have hx2 := lookup_of_mem_nodup json kv.1 kv.2 (by rw [← Prod.mk.eta (p := kv)]; exact hj.1) hkeys
    rw [hkvk] at hx2
    rw [hx1] at hx2
    exact h2 (Option.some.injEq _ _ |>.mp hx2.symm)
  have hclean2 : ∀ k v, (k, some v) ∈ json →
      (json.filter (fun kv => kv.2 ≠ none)).lookup k = some (some v) := by
    intro k v hk
    apply lookup_of_mem_nodup _ _ _ _ hclean_keys
    exact List.mem_filter.mpr ⟨hk, by simp⟩
  have hpart2clean : (updateResource t rv json).2 = json.filter (fun kv => kv.2 ≠ none) := by
    rw [updateResource_eq]
  refine ⟨?_, ?_, ?_⟩
  · intro k hk
    exact ⟨fun d hd hm => (hmem_table d hd hm).1 k hk,
      by rw [hpart2clean]; exact hclean1 k hk⟩
  · intro k v hk
    exact ⟨fun d hd hm => (hmem_table d hd hm).2 k v hk,
      by rw [hpart2clean]; exact hclean2 k v hk⟩
  · intro d hd
    unfold retrieveResourceRi at hd
    rcases hl : searchResourcesRi (updateResource t rv json).1 rv with _ | ⟨a, tl⟩
    · rw [hl] at hd
      exact absurd hd (by simp)
    · rw [hl] at hd
      cases tl with
      | nil =>
          have had : a = d := by simpa using hd
          have hamem : a ∈ searchResourcesRi (updateResource t rv json).1 rv := by
            rw [hl]
            exact List.mem_singleton.mpr rfl
          have hfil := List.mem_filter.mp hamem
          subst had
          exact ⟨fun k hk => (hmem_table a hfil.1 hfil.2).1 k hk,
            fun k v hk => (hmem_table a hfil.1 hfil.2).2 k v hk⟩
      | cons b tl2 => exact absurd hd (by simp)

/-- C6 witness: nullifying attribute a and updating attribute b on a stored
    record. -/
theorem C6_updateNullFieldRemoval_witness :
    (∀ d ∈ (updateResource [[("ri", some 1), ("a", some 5)]] (1 : Nat)
        [("ri", some 1), ("a", none), ("b", some 7)]).1,
      matchesRi 1 d = true → d.lookup "a" = none) ∧
    (updateResource [[("ri", some 1), ("a", some 5)]] (1 : Nat)
        [("ri", some 1), ("a", none), ("b", some 7)]).2.lookup "a" = none :=
  (C6_updateNullFieldRemoval [[("ri", some 1), ("a", some 5)]] 1
    [("ri", some 1), ("a", none), ("b", some 7)] (by decide) (by decide)).1
    "a" (by decide)

/-- C7 counterexample: the claim quantifies over every ACP set A, including
    the empty one: the creator CAe1 has access to a resource whose acpi is
    present but references no ACP (creator-based access), yet with the
    superset that references the single ACP acp1 (which grants nothing) the
    access is denied, because a non-empty acpi list disables the creator
    fallback entirely. -/
theorem C7_counterexample :
    cxRes.acpi = some [] ∧
    cxResSuper = { cxRes with acpi := some ["acp1"] } ∧
    hasAccessFuel cxSecEnv 2 (some "CAe1") cxRes Permission.UPDATE none none = true ∧
    hasAccessFuel cxSecEnv 2 (some "CAe1") cxResSuper Permission.UPDATE none none
      = false := by
  refine ⟨rfl, rfl, by decide, by decide⟩

theorem hasAccessAfterConvert_mono (env : SecEnv) (o : String) (perm : Nat)
    (ty : Option RT) (par : Option SRes) (s : Bool) (r1 r2 : SRes) (x y : Bool)
    (hann : announcedOk env o r2 = announcedOk env o r1)
    (hat : atUpdateOk o r2 perm = atUpdateOk o r1 perm)
    (hrtc : resourceTypeCase env o r2 perm ty par s = resourceTypeCase env o r1 perm ty par s)
    (hxy : x = true → y = true)
    (h : hasAccessAfterConvert env o r1 perm ty par s x = true) :
    hasAccessAfterConvert env o r2 perm ty par s y = true := by
  unfold hasAccessAfterConvert at h ⊢
  rw [hann, hat, hrtc]
  by_cases h1 : perm = 0 ∨ Permission.ALL < perm
  · rw [if_pos h1] at h
    exact absurd h (by simp)
  · rw [if_neg h1] at h ⊢
    rcases hts : tyShortcut env o perm ty par with _ | b
    · rw [hts] at h
      dsimp only at h ⊢
      by_cases h2 : announcedOk env o r1 = true
      · simp [h2]
      · rw [if_neg h2] at h ⊢
        by_cases h3 : atUpdateOk o r1 perm = true
        · simp [h3]
        · rw [if_neg h3] at h ⊢
          rcases hrc : resourceTypeCase env o r1 perm ty par s with _ | b2
          · rw [hrc] at h
            dsimp only at h ⊢
            exact hxy h
          · rw [hrc] at h
            dsimp only at h ⊢
            exact h
    · rw [hts] at h
      dsimp only at h ⊢
      exact h

/-- C7 (amended): access-control evaluation is monotone in the set of
    granted policies as long as the resource already references at least one
    ACP: for a resource whose acpi references a non-empty set A, replacing A
    by any superset B preserves a granted access; and adding an
    access-control rule to the pv rule set of an ACP never turns a granted
    checkSingleACPPermission into a denial. (For the empty set A the claim
    fails: a resource without referenced ACPs falls back to creator or
    custodian access, which a first referenced ACP disables.) -/
theorem C7_accessMonotonicity :
    (∀ (env : SecEnv) (fuel : Nat) (orig : Option String) (r : SRes) (perm : Nat)
        (ty : Option RT) (par : Option SRes) (A B : List String),
      r.acpi = some A → A ≠ [] → A ⊆ B →
      hasAccessFuel env fuel orig r perm ty par = true →
      hasAccessFuel env fuel orig { r with acpi := some B } perm ty par = true) ∧
    (∀ (env : SecEnv) (acp : ACPRes) (pv2 : List ACR) (o : String) (perm : Nat)
        (ty : Option RT),
      acp.pv ⊆ pv2 →
      checkSingleACPPermission env acp o perm ty = true →
      checkSingleACPPermission env { acp with pv := pv2 } o perm ty = true) := by
  constructor
  · intro env fuel orig r perm ty par A B hA hAne hAB h
    cases fuel with
    | zero => exact absurd h (by simp [hasAccessFuel])
    | succ fuel =>
        obtain ⟨ri, rty, pi, acpi, macp, cstn, creator, mayH, inh, isAnn, lnk, atR,
          pOrig, pv, pvs⟩ := r
        simp only at hA
        subst hA
        have hBne : B ≠ [] := by
          rcases List.exists_mem_of_ne_nil A hAne with ⟨a, ha⟩
          exact List.ne_nil_of_mem (hAB ha)
        cases orig with
        | none => simp [hasAccessFuel]
        | some o1 =>
            simp only [hasAccessFuel] at h ⊢
            by_cases hen : env.enableACPChecks = false
            · rw [if_pos hen]
            · rw [if_neg hen] at h ⊢
              by_cases hadm : o1 = env.cseOriginator ∨
                  (strEndsWith o1 ("/" ++ env.cseOriginator) ∧ env.fullAccessAdmin)
              · rw [if_pos hadm]
              · rw [if_neg hadm] at h ⊢
                by_cases hnot : perm = Permission.NOTIFY ∧ o1 = env.cseCsi
                · rw [if_pos hnot]
                · rw [if_neg hnot] at h ⊢
                  refine hasAccessAfterConvert_mono env _ perm ty par _ _ _ _ _
                    rfl rfl rfl ?_ h
                  intro hx
                  have hAempty : A.isEmpty = false := by
                    cases A
                    · exact absurd rfl hAne
                    · rfl
                  have hBempty : B.isEmpty = false := by
                    cases B
                    · exact absurd rfl hBne
                    · rfl
                  rw [if_neg (by simp [hAempty])] at hx
                  rw [if_neg (by simp [hBempty])]
                  rw [List.any_eq_true] at hx ⊢
                  obtain ⟨a, ha, hfa⟩ := hx
                  exact ⟨a, hAB ha, hfa⟩
  · intro env acp pv2 o perm ty hsub h
    unfold checkSingleACPPermission at h ⊢
    dsimp only at h ⊢
    rw [List.any_eq_true] at h ⊢
    obtain ⟨acr, hacr, hf⟩ := h
    exact ⟨acr, hsub hacr, hf⟩

/-- C7 witness: access granted through the permissive ACP acpAll is kept
    when the empty ACP acp1 is added to the acpi list. -/
theorem C7_accessMonotonicity_witness :
    hasAccessFuel cxSecEnv2 2 (some "CAe1") { cxRes2 with acpi := some ["acpAll", "acp1"] }
      Permission.UPDATE none none = true :=
  C7_accessMonotonicity.1 cxSecEnv2 2 (some "CAe1") cxRes2 Permission.UPDATE none none
    ["acpAll"] ["acpAll", "acp1"] rfl (by simp) (by simp) (by decide)

end Acme
